import Mathlib

/-!
Verification of the routicle supply-chain routing library.

The definitions below are a shallow embedding of the Python sources:

* `routicle/components/base.py` (nodes, edges, the `__setattr__` guard),
* `routicle/core/networkx.py` and `routicle/core/networkx/paths.py`
  (graph registry, path enumeration via `nx.all_simple_paths`,
  weight/cost aggregation, `sortedpaths`, `__set_path__`, `getbycidx`),
* `routicle/core/optimizer/base.py` (the PuLP model builder).

Numeric attributes (Python floats) are modelled as rationals; Python
exceptions are modelled by the `PyError` error channel of `Except`.
-/

namespace Routicle

/-- Kinds of Python runtime errors that the embedded code can raise. -/
inductive PyError where
  | keyError
  | indexError
  | valueError
  | attributeError
  | assertionError
  | nodeNotFound
deriving DecidableEq, Repr

/-- Python `d[key]` on a dict (modelled as an association list in
insertion order): the first binding wins, a missing key raises
`KeyError`. -/
def pyDictGet (d : List (String × ℚ)) (key : String) : Except PyError ℚ :=
  match d.find? (fun kv => kv.1 = key) with
  | some kv => Except.ok kv.2
  | none => Except.error PyError.keyError

/-- Truthiness of a Python `str | None` value (`None` and `""` are falsy). -/
def pyTruthyStr : Option String → Bool
  | none => false
  | some s => s ≠ ""

/-- Truthiness of a Python `int | None` value (`None` and `0` are falsy).
Used for the `roundvalue` keyword of `getpaths`. -/
def pyTruthyInt : Option Int → Bool
  | none => false
  | some d => d ≠ 0

/-- Model of `routicle.components.base.GraphNode` (aliased `PointOfInterest`):
identity fields plus the capacity interval. `maxcapacity = none`
models the default `float("inf")`. -/
structure PointOfInterest where
  name : String
  cidx : String
  mincapacity : ℚ
  maxcapacity : Option ℚ
deriving DecidableEq, Repr

/-- Model of `GraphNode.validate_capacity`: `mincapacity <= maxcapacity`
(trivially true against the infinite default). -/
def validCapacity (n : PointOfInterest) : Bool :=
  match n.maxcapacity with
  | none => true
  | some m => n.mincapacity ≤ m

/-- Model of the `routicle.components.base.GraphEdge` subclasses (`POIConnector`):
identity, endpoints, the derived scalar `weight`, and the `attributes`
dict exposed to the graph (numeric entries only; the `color` string is
presentation-only and out of scope). -/
structure POIConnector where
  cidx : String
  uname : String
  vname : String
  weight : ℚ
  attributes : List (String × ℚ)
deriving DecidableEq, Repr

/-- Model of the `routicle.components.base.GraphEdge` record for the `__setattr__`
claim: the pydantic fields plus the private colour slot (source
attribute name `_color`, which is not a legal Lean field name). -/
structure GraphEdge where
  name : String
  cidx : String
  environ : String
  unode : String
  vnode : String
  label : Option String
  pcolor : String
deriving DecidableEq, Repr

/-- Model of `GraphEdge.__setattr__(name, value)` from
`routicle/components/base.py` lines 246-289: only names in the
`allowed = ["_color"]` list may be assigned; anything else raises
`ValueError` before any state is touched. -/
def graphEdgeSetattr (e : GraphEdge) (attrname : String) (value : String) :
    Except PyError GraphEdge :=
  let allowed : List String := ["_color"]
  if attrname ∉ allowed then Except.error PyError.valueError
  else Except.ok { e with pcolor := value }

/-- The edge state after attempting `GraphEdge.__setattr__`: on an
exception the object is left as it was. -/
def graphEdgeSetattrState (e : GraphEdge) (attrname : String) (value : String) :
    GraphEdge :=
  match graphEdgeSetattr e attrname value with
  | Except.ok e2 => e2
  | Except.error _ => e

/-- Model of `routicle.core.networkx.nxGraph` after `__init_graph__` and the
`__set_dnodes__`/`__set_dedges__` assertions: the topology (`G.nodes`,
and `G.edges = dedges` keys) together with the two attribute maps,
kept as lists in insertion order. -/
structure NxGraph where
  nodes : List String
  dnodes : List (String × PointOfInterest)
  dedges : List ((String × String) × POIConnector)
deriving DecidableEq, Repr

/-- The directed edge pairs of the topology (the keys of `dedges`). -/
def topoEdges (g : NxGraph) : List (String × String) :=
  g.dedges.map (fun ed => ed.1)

/-- Model of `nxGraph.inspect(name, component="edge")`: subscript into the
`dedges` dict. -/
def lookupEdge (g : NxGraph) (key : String × String) : Option POIConnector :=
  (g.dedges.find? (fun ed => ed.1 = key)).map (fun ed => ed.2)

/-- Model of `nxGraph.getbycidx`: the comprehension
`[c for c in component.values() if c.cidx == cidx][0]` — a linear scan
in insertion order; subscript `[0]` on an empty result raises
`IndexError`. Generic in the component payload, with `cidxOf`
extracting the `cidx` attribute. -/
def getbycidx {α : Type} (cidxOf : α → String) (comps : List α) (cidx : String) :
    Except PyError α :=
  match comps.filter (fun c => cidxOf c = cidx) with
  | [] => Except.error PyError.indexError
  | c :: _ => Except.ok c

/-- Forward successors of `u` in the edge list (directed adjacency). -/
def successors (E : List (String × String)) (u : String) : List String :=
  (E.filter (fun e => e.1 = u)).map (fun e => e.2)

/-- Depth-first enumeration of the simple paths from `cur` to `tgt`
that avoid `visited`, the semantics of the external
`networkx.all_simple_paths` as used by `nxGraph.getpaths` (and as
described by its documentation: DFS with a visited set along the
current branch, backtracking to find every simple path). `fuel`
bounds the recursion depth; any value at least the number of
remaining nodes is exact, and the soundness theorems hold for every
`fuel`. Reaching `tgt` ends the path (a simple path visits `tgt`
once); `source = target` yields the single-node path. -/
def dfsPaths (E : List (String × String)) (tgt : String) :
    Nat → String → List String → List (List String)
  | 0, cur, _ =>
    if cur = tgt then [[cur]] else []
  | f + 1, cur, visited =>
    if cur = tgt then [[cur]]
    else
      ((successors E cur).filter (fun v => decide (v ∉ cur :: visited))).flatMap
        (fun nxt => (dfsPaths E tgt f nxt (cur :: visited)).map (fun p => cur :: p))

/-- Model of `nx.all_simple_paths(self.G, source, target)` as invoked by
`getpaths`: `networkx` raises `NodeNotFound` when either endpoint is
not a node of the graph, otherwise enumerates all simple paths. This
is the list bound to `allpaths["paths"]["nodes"]`. -/
def getpathsNodes (g : NxGraph) (source target : String) :
    Except PyError (List (List String)) :=
  if source ∈ g.nodes ∧ target ∈ g.nodes then
    Except.ok (dfsPaths (topoEdges g) target g.nodes.length source [])
  else Except.error PyError.nodeNotFound

/-- Model of `itertools.pairwise`: consecutive overlapping pairs of a list. -/
def pairwiseL {α : Type} (l : List α) : List (α × α) :=
  l.zip l.tail

/-- The assignment `allpaths["paths"]["edges"] = [list(pairwise(path)) for path in nodes]`. -/
def getpathsEdges (g : NxGraph) (source target : String) :
    Except PyError (List (List (String × String))) :=
  (getpathsNodes g source target).map (fun paths => paths.map pairwiseL)

/-- The expression `self.inspect(edge, component="edge").attributes[attribute]` for a
single edge pair: dict subscript into `dedges` followed by dict
subscript into the edge component's `attributes` dict; each missing
key is a Python `KeyError`. -/
def edgeAttrValue (g : NxGraph) (attrname : String) (e : String × String) :
    Except PyError ℚ :=
  match lookupEdge g e with
  | none => Except.error PyError.keyError
  | some c => pyDictGet c.attributes attrname

/-- A Python comprehension over a fallible per-element expression: the
first raised exception aborts the whole comprehension. -/
def mapExcept {α β : Type} (f : α → Except PyError β) : List α → Except PyError (List β)
  | [] => Except.ok []
  | a :: as =>
    match f a with
    | Except.error err => Except.error err
    | Except.ok b =>
      match mapExcept f as with
      | Except.error err => Except.error err
      | Except.ok bs => Except.ok (b :: bs)

/-- The nested comprehension gathering, for every enumerated path, the
chosen attribute of each of its edges (`getpaths`, the first
`weights` assignment). -/
def weightsGather (g : NxGraph) (source target attrname : String) :
    Except PyError (List (List ℚ)) :=
  (getpathsEdges g source target).bind
    (fun eps => mapExcept (fun p => mapExcept (edgeAttrValue g attrname) p) eps)

/-- The expression `sum(weight) if calculate == "additive" else prod(weight)`. -/
def combineWeight (calculate : String) (ws : List ℚ) : ℚ :=
  if calculate = "additive" then ws.sum else ws.prod

/-- The second `weights` assignment of `getpaths`: each gathered list
is reduced by the chosen combination mode. -/
def weightsCombined (g : NxGraph) (source target attrname calculate : String) :
    Except PyError (List ℚ) :=
  (weightsGather g source target attrname).map
    (fun ls => ls.map (combineWeight calculate))

/-- Round half to even on a rational, the semantics of Python
`round` applied to an exactly-representable value. -/
def roundHalfEven (q : ℚ) : Int :=
  if q - (⌊q⌋ : ℚ) < 1 / 2 then ⌊q⌋
  else if 1 / 2 < q - (⌊q⌋ : ℚ) then ⌊q⌋ + 1
  else if ⌊q⌋ % 2 = 0 then ⌊q⌋ else ⌊q⌋ + 1

/-- Python `round(x, ndigits)` on an exact numeric value. -/
def pyRound (ndigits : Int) (x : ℚ) : ℚ :=
  ((roundHalfEven (x * (10 : ℚ) ^ ndigits) : ℚ)) / (10 : ℚ) ^ ndigits

/-- The `if roundvalue:` guard of `getpaths`: the rounding map is
applied only when the supplied keyword is truthy (so `None` and `0`
both disable it). -/
def applyRound (roundvalue : Option Int) (xs : List ℚ) : List ℚ :=
  if pyTruthyInt roundvalue then xs.map (pyRound (roundvalue.getD 0)) else xs

/-- The `weights` list of the `getpaths` result, after the optional
rounding pass. -/
def weightsFinal (g : NxGraph) (source target attrname calculate : String)
    (roundvalue : Option Int) : Except PyError (List ℚ) :=
  (weightsCombined g source target attrname calculate).map (applyRound roundvalue)

/-- The `costs` list of `getpaths` before rounding: for each path, the
sum over its consecutive node pairs of the pluggable `nxcostfunc`
(modelled as a total per-hop cost function `cf`, the shape of
`nx.dijkstra_path_length(self.G, source, target, weight=attribute)`). -/
def costsRaw (g : NxGraph) (source target : String) (cf : String × String → ℚ) :
    Except PyError (List ℚ) :=
  (getpathsEdges g source target).map
    (fun eps => eps.map (fun p => (p.map cf).sum))

/-- The `costs` list of the `getpaths` result, after the optional
rounding pass. -/
def costsFinal (g : NxGraph) (source target : String) (cf : String × String → ℚ)
    (roundvalue : Option Int) : Except PyError (List ℚ) :=
  (costsRaw g source target cf).map (applyRound roundvalue)

/-- A `source`/`target` argument of `getpaths`/`PathAnalysis`: Python
`None`, a node name, or a resolved `PointOfInterest` object. -/
inductive PathEndpoint where
  | noneArg
  | nameArg (s : String)
  | nodeArg (n : PointOfInterest)
deriving DecidableEq, Repr

/-- The resolution `lambda x: x.name if isinstance(x, PointOfInterest) else x`. -/
def resolveEndpoint : PathEndpoint → Option String
  | PathEndpoint.noneArg => none
  | PathEndpoint.nameArg s => some s
  | PathEndpoint.nodeArg n => some n.name

/-- Model of `nxGraph.__set_path__` (identical in `core/networkx.py` lines
594-612 and `core/networkx/paths.py` lines 329-347): resolve both
endpoints to names, then run the three assertions exactly as written
in the source. Note that the second assertion — whose message reads
"Target Node is not a part of the Graph" — re-checks `source`, not
`target`; the embedding reproduces that line faithfully. -/
def setPath (dnodes : List (String × PointOfInterest))
    (source target : PathEndpoint) :
    Except PyError (Option String × Option String) :=
  let s := resolveEndpoint source
  let t := resolveEndpoint target
  let keys := dnodes.map (fun kv => kv.1)
  if ¬ (if pyTruthyStr s then s.getD "" ∈ keys else True) then
    Except.error PyError.assertionError
  else if ¬ (if pyTruthyStr s then s.getD "" ∈ keys else True) then
    Except.error PyError.assertionError
  else if s = t ∧ t = none then
    Except.error PyError.assertionError
  else Except.ok (s, t)

/-- The Python `(value is None, value)` sort key used by
`sortedpaths`. -/
def sortkey (vals : List (Option ℚ)) (i : Nat) : Bool × Option ℚ :=
  ((vals.getD i none).isNone, vals.getD i none)

/-- Total preorder on the sort keys that Python's tuple comparison
induces on the keys actually produced (`(False, number)` or
`(True, None)`): `False` sorts before `True`, numbers compare
numerically, two `None` payloads are tied. -/
def keyLE (a b : Bool × Option ℚ) : Bool :=
  if a.1 = b.1 then
    match a.2, b.2 with
    | some x, some y => decide (x ≤ y)
    | _, _ => true
  else !a.1

/-- Stable insertion of `x` into an already-ordered list: `x` is
placed before the first element it compares `le` to, so elements that
tie keep their original relative order. -/
def insertStable {α : Type} (le : α → α → Bool) (x : α) : List α → List α
  | [] => [x]
  | y :: ys => if le x y then x :: y :: ys else y :: insertStable le x ys

/-- Stable sort by a boolean total preorder, the semantics of Python
`sorted`. -/
def pysorted {α : Type} (le : α → α → Bool) : List α → List α
  | [] => []
  | x :: xs => insertStable le x (pysorted le xs)

/-- Model of `sortedpaths` applied to the list `paths[cattribute]` itself
(lines 497-525 of `core/networkx.py`, 298-326 of
`core/networkx/paths.py`): assert `sense in [1, -1]`; argsort
`range(n)` by `(value is None, value)` with `reverse = (sense == -1)`
(Python `reverse=True` is a stable reversed comparison); then rebuild
each parallel list as `[vi for _, vi in sorted(zip(ordered, v))]`,
i.e. sort the `(ordered[i], v[i])` pairs by first component (all
distinct). -/
def sortedpathsValues (vals : List (Option ℚ)) (sense : Int) :
    Except PyError (List (Option ℚ)) :=
  if sense = 1 ∨ sense = -1 then
    let n := vals.length
    let le : Nat → Nat → Bool := fun i j =>
      if sense = 1 then keyLE (sortkey vals i) (sortkey vals j)
      else keyLE (sortkey vals j) (sortkey vals i)
    let ordered := pysorted le (List.range n)
    Except.ok ((pysorted (fun a b => decide (a.1 ≤ b.1)) (ordered.zip vals)).map
      (fun pr => pr.2))
  else Except.error PyError.assertionError

/-- The `pulp.LpMinimize` library constant. -/
def LpMinimize : Int := 1

/-- The `pulp.LpMaximize` library constant. -/
def LpMaximize : Int := -1

/-- Model of `BaseOptimizerModel.validate_sense`: `assert self.sense in [1, -1]`. -/
def validateSense (sense : Int) : Bool :=
  decide (sense = 1) || decide (sense = -1)

/-- Model of `PuLPModel._sense` (`core/optimizer/base.py` lines 134-136):
`p.LpMinimize if self.sense == -1 else p.LpMaximize`. -/
def lpSense (sense : Int) : Int :=
  if sense = -1 then LpMinimize else LpMaximize

/-- A `pulp.LpVariable`: name, optional bounds (`none` = unbounded,
pulp's `None` default) and category (pulp default `"Continuous"`). -/
structure LpVariable where
  name : String
  lowBound : Option ℚ
  upBound : Option ℚ
  cat : String
deriving DecidableEq, Repr

/-- Model of `PuLPModel.__define_objective__`: for every edge of the network,
the term `edge.weight * p.LpVariable(edge.cidx)` — a fresh variable
named by the edge `cidx` with pulp's default (unbounded, continuous)
settings. These are the only variables the constructor ever adds. -/
def defineObjective (g : NxGraph) : List (ℚ × LpVariable) :=
  g.dedges.map (fun ed =>
    (ed.2.weight,
     { name := ed.2.cidx, lowBound := none, upBound := none, cat := "Continuous" }))

/-- Model of `pulp.LpProblem.variables()` as reached through
`PuLPModel.nvariables`: the distinct variables appearing in the
problem (all of them come from the objective); pulp deduplicates by
name (its name-sorting is immaterial to the claims and omitted). -/
def nvariables (g : NxGraph) : List LpVariable :=
  ((defineObjective g).map (fun t => t.2)).foldl
    (fun acc v => if acc.any (fun w => w.name = v.name) then acc else acc ++ [v]) []

/-- Model of `PuLPModel.__init__`: run the pydantic validators (in particular
`validate_sense`), then build the `LpProblem` with sense
`self._sense` and objective `__define_objective__()`. -/
structure PuLPProblem where
  name : String
  lpsense : Int
  objective : List (ℚ × LpVariable)
  lpvariables : List LpVariable
deriving DecidableEq, Repr

/-- Construction of a `PuLPModel` over a network. An invalid `sense`
fails pydantic validation (`AssertionError`) before any LP object is
built. -/
def pulpModelInit (name : String) (g : NxGraph) (sense : Int) :
    Except PyError PuLPProblem :=
  if validateSense sense then
    Except.ok
      { name := name, lpsense := lpSense sense,
        objective := defineObjective g, lpvariables := nvariables g }
  else Except.error PyError.assertionError

/-- Decidable equality on `Except`, for evaluating embedded results on
concrete inputs. -/
instance {ε α : Type} [DecidableEq ε] [DecidableEq α] : DecidableEq (Except ε α) :=
  fun a b =>
    match a, b with
    | Except.ok x, Except.ok y =>
      if h : x = y then isTrue (by rw [h]) else isFalse (fun hh => h (Except.ok.inj hh))
    | Except.error e, Except.error f =>
      if h : e = f then isTrue (by rw [h]) else isFalse (fun hh => h (Except.error.inj hh))
    | Except.ok _, Except.error _ => isFalse (fun hh => Except.noConfusion hh)
    | Except.error _, Except.ok _ => isFalse (fun hh => Except.noConfusion hh)

/-- Reachability along the directed edge list: the reflexive-transitive
closure of the edge relation. -/
inductive Reachable (E : List (String × String)) : String → String → Prop where
  | refl (a : String) : Reachable E a a
  | step {a b c : String} : (a, b) ∈ E → Reachable E b c → Reachable E a c

/-- Example node `A` with capacity interval `[2, 5]`. -/
def nodeA : PointOfInterest :=
  { name := "A", cidx := "NA", mincapacity := 2, maxcapacity := some 5 }

/-- Example node `B` with capacity interval `[1, 7]`. -/
def nodeB : PointOfInterest :=
  { name := "B", cidx := "NB", mincapacity := 1, maxcapacity := some 7 }

/-- Example node `C` with the default capacity interval `[0, inf)`. -/
def nodeC : PointOfInterest :=
  { name := "C", cidx := "NC", mincapacity := 0, maxcapacity := none }

/-- Example edge `A -> B` with weight 3 and a `weight` attribute only. -/
def edgeAB : POIConnector :=
  { cidx := "E1", uname := "A", vname := "B", weight := 3,
    attributes := [("weight", 3)] }

/-- Example two-node network with the single edge `A -> B`. -/
def gOpt : NxGraph :=
  { nodes := ["A", "B"],
    dnodes := [("A", nodeA), ("B", nodeB)],
    dedges := [(("A", "B"), edgeAB)] }

/-- Example three-node network where `C` is unreachable from `A`. -/
def gEx : NxGraph :=
  { nodes := ["A", "B", "C"],
    dnodes := [("A", nodeA), ("B", nodeB), ("C", nodeC)],
    dedges := [(("A", "B"), edgeAB)] }

/-- Example edge `A -> B` whose weight attribute `5/2` needs rounding. -/
def edgeABHalf : POIConnector :=
  { cidx := "E1", uname := "A", vname := "B", weight := 5 / 2,
    attributes := [("weight", 5 / 2)] }

/-- Example network carrying the fractional-weight edge. -/
def gQ : NxGraph :=
  { nodes := ["A", "B"],
    dnodes := [("A", nodeA), ("B", nodeB)],
    dedges := [(("A", "B"), edgeABHalf)] }

/-- Example `GraphEdge` record in its default state. -/
def edgeRecEx : GraphEdge :=
  { name := "E-A-B", cidx := "898a8bca", environ := "nx", unode := "A",
    vnode := "B", label := none, pcolor := "#191A1C" }

/-- Claim C1: the claim states that model sense `+1` yields a
minimization problem and `-1` a maximization problem. The code does
the opposite: `PuLPModel._sense` returns `LpMaximize` (`-1`) for
`sense = 1` and `LpMinimize` (`1`) for `sense = -1`, while any other
sense is indeed rejected by `validate_sense` at construction. -/
theorem c1_sense_inverted :
    lpSense 1 = LpMaximize ∧ lpSense (-1) = LpMinimize ∧
    LpMinimize = 1 ∧ LpMaximize = -1 ∧
    validateSense 1 = true ∧ validateSense (-1) = true ∧
    (∀ g : NxGraph, ∀ nm : String,
      pulpModelInit nm g 0 = Except.error PyError.assertionError) ∧
    (∀ g : NxGraph, ∀ nm : String, ∃ m : PuLPProblem,
      pulpModelInit nm g 1 = Except.ok m ∧ m.lpsense = LpMaximize) := by
  refine ⟨rfl, rfl, rfl, rfl, rfl, rfl, ?_, ?_⟩
  · intro g nm
    unfold pulpModelInit
    rw [if_neg]
    simp [validateSense]
  · intro g nm
    exact ⟨{ name := nm, lpsense := lpSense 1, objective := defineObjective g,
             lpvariables := nvariables g }, rfl, rfl⟩

/-- Claim C2: the claim states one bounded decision variable per node.
Evaluating the constructor on the two-node, one-edge network `gOpt`
shows the model holds exactly one variable, named by the edge `cidx`
with pulp's default unbounded bounds, although the graph has two
nodes with finite capacity intervals `[2, 5]` and `[1, 7]`. -/
theorem c2_variables_per_edge_unbounded :
    nvariables gOpt =
      [{ name := "E1", lowBound := none, upBound := none, cat := "Continuous" }] ∧
    (nvariables gOpt).length = 1 ∧ gOpt.dnodes.length = 2 ∧
    (∀ v ∈ nvariables gOpt, v.lowBound = none ∧ v.upBound = none) ∧
    nodeA.mincapacity = 2 ∧ nodeA.maxcapacity = some 5 ∧
    nodeB.mincapacity = 1 ∧ nodeB.maxcapacity = some 7 := by
  decide

/-- Claim C3: the claim states `sortedpaths` returns ascending order
for `sense = +1` and places undefined values last for every sense. On
attribute values `[2, 3, 1]` with `sense = 1` the code returns
`[3, 1, 2]` (it applies the inverse of the sorting permutation through
`sorted(zip(ordered, v))`), and on `[2, None]` with `sense = -1` the
`None` entry comes first, not last. -/
theorem c3_sortedpaths_misordered :
    sortedpathsValues [some 2, some 3, some 1] 1 =
      Except.ok [some 3, some 1, some 2] ∧
    sortedpathsValues [some 2, some 3, some 1] 1 ≠
      Except.ok [some 1, some 2, some 3] ∧
    sortedpathsValues [some 2, none] (-1) = Except.ok [none, some 2] := by
  decide

/-- Claim C4: the claim states an unregistered target name fails path
setup. Evaluating `__set_path__` on a graph whose only nodes are
`A`, `B` with target `Z` returns `("A", "Z")` without any error,
because the assertion labelled "Target Node is not a part of the
Graph" re-checks the source name. -/
theorem c4_unregistered_target_accepted :
    "Z" ∉ gOpt.dnodes.map (fun kv => kv.1) ∧
    setPath gOpt.dnodes (PathEndpoint.nameArg "A") (PathEndpoint.nameArg "Z") =
      Except.ok (some "A", some "Z") := by
  decide

/-- Claim C7: weight aggregation is mode-pure — mode `"additive"`
reduces every gathered per-path weight list by its arithmetic sum,
mode `"multiplicative"` by its product, and on a single-edge path the
two modes coincide. -/
theorem c7_aggregation_mode_pure :
    (∀ g : NxGraph, ∀ s t attrname : String,
      weightsCombined g s t attrname "additive" =
        (weightsGather g s t attrname).map (fun ls => ls.map List.sum)) ∧
    (∀ g : NxGraph, ∀ s t attrname : String,
      weightsCombined g s t attrname "multiplicative" =
        (weightsGather g s t attrname).map (fun ls => ls.map List.prod)) ∧
    (∀ w : ℚ, combineWeight "additive" [w] = combineWeight "multiplicative" [w]) := by
  have hadd : combineWeight "additive" = List.sum := by
    funext ws; unfold combineWeight; rw [if_pos rfl]
  have hmul : combineWeight "multiplicative" = List.prod := by
    funext ws; unfold combineWeight; rw [if_neg (by decide)]
  refine ⟨?_, ?_, ?_⟩
  · intro g s t attrname; unfold weightsCombined; rw [hadd]
  · intro g s t attrname; unfold weightsCombined; rw [hmul]
  · intro w; rw [hadd, hmul]; simp

/-- Claim C9: `getbycidx` is a linear scan in insertion order — it
returns exactly the first record whose `cidx` matches (`List.find?`)
and fails precisely when no record matches. -/
theorem c9_getbycidx_first_match {α : Type} (cidxOf : α → String)
    (comps : List α) (cidx : String) :
    getbycidx cidxOf comps cidx =
      (match comps.find? (fun c => cidxOf c = cidx) with
       | none => Except.error PyError.indexError
       | some c => Except.ok c) ∧
    (getbycidx cidxOf comps cidx = Except.error PyError.indexError ↔
      ∀ c ∈ comps, cidxOf c ≠ cidx) := by
  induction comps with
  | nil => exact ⟨rfl, by simp [getbycidx]⟩
  | cons a as ih =>
      by_cases h : cidxOf a = cidx
      · constructor
        · simp [getbycidx, List.filter_cons, List.find?_cons, h]
        · simp [getbycidx, List.filter_cons, h]
      · constructor
        · simpa [getbycidx, List.filter_cons, List.find?_cons, h] using ih.1
        · rw [show getbycidx cidxOf (a :: as) cidx = getbycidx cidxOf as cidx by
            simp [getbycidx, List.filter_cons, h]]
          rw [ih.2]
          constructor
          · intro hall c hc
            rcases List.mem_cons.mp hc with rfl | hc2
            · exact h
            · exact hall c hc2
          · intro hall c hc
            exact hall c (List.mem_cons_of_mem a hc)

/-- Claim C10: `GraphEdge.__setattr__` raises `ValueError` for every
attribute name other than `_color` and leaves the edge unchanged, so
all fields except the colour are immutable through assignment. -/
theorem c10_setattr_immutable (e : GraphEdge) (attrname value : String)
    (h : attrname ≠ "_color") :
    graphEdgeSetattr e attrname value = Except.error PyError.valueError ∧
    graphEdgeSetattrState e attrname value = e := by
  have hcond : attrname ∉ (["_color"] : List String) := by
    intro hc
    exact h (by simpa using hc)
  constructor
  · unfold graphEdgeSetattr
    rw [if_pos hcond]
  · unfold graphEdgeSetattrState graphEdgeSetattr
    rw [if_pos hcond]

/-- Witness for C10 at the concrete edge record and attribute `label`. -/
theorem c10_setattr_immutable_witness :
    ("label" : String) ≠ "_color" ∧
    (graphEdgeSetattr edgeRecEx "label" "x" = Except.error PyError.valueError ∧
     graphEdgeSetattrState edgeRecEx "label" "x" = edgeRecEx) :=
  ⟨by decide, c10_setattr_immutable edgeRecEx "label" "x" (by decide)⟩

/-- The attribute lookup for one edge either raises `KeyError` or
returns a value: no other exception kind can come out of it. -/
theorem edgeAttrValue_cases (g : NxGraph) (attrname : String) (e : String × String) :
    edgeAttrValue g attrname e = Except.error PyError.keyError ∨
    ∃ r, edgeAttrValue g attrname e = Except.ok r := by
  unfold edgeAttrValue
  cases hle : lookupEdge g e with
  | none => left; rfl
  | some c =>
      show pyDictGet c.attributes attrname = Except.error PyError.keyError ∨
        ∃ r, pyDictGet c.attributes attrname = Except.ok r
      unfold pyDictGet
      cases hf : c.attributes.find? (fun kv => kv.1 = attrname) with
      | none => left; rfl
      | some kv => right; exact ⟨kv.2, rfl⟩

/-- A fallible comprehension whose body can only raise `KeyError`
either raises `KeyError` or succeeds. -/
theorem mapExcept_cases {α β : Type} (f : α → Except PyError β)
    (hf : ∀ a, f a = Except.error PyError.keyError ∨ ∃ r, f a = Except.ok r)
    (l : List α) :
    mapExcept f l = Except.error PyError.keyError ∨
    ∃ rs, mapExcept f l = Except.ok rs := by
  induction l with
  | nil => right; exact ⟨[], rfl⟩
  | cons a as ih =>
      rcases hf a with ha | ⟨r, ha⟩
      · left; simp [mapExcept, ha]
      · rcases ih with hih | ⟨rs, hih⟩
        · left; simp [mapExcept, ha, hih]
        · right; exact ⟨r :: rs, by simp [mapExcept, ha, hih]⟩

/-- If some element of a fallible comprehension raises `KeyError` (and
the body raises nothing else), the whole comprehension raises
`KeyError`. -/
theorem mapExcept_error_of_mem {α β : Type} (f : α → Except PyError β)
    (hf : ∀ a, f a = Except.error PyError.keyError ∨ ∃ r, f a = Except.ok r)
    {l : List α} {a : α} (ha : a ∈ l)
    (hfa : f a = Except.error PyError.keyError) :
    mapExcept f l = Except.error PyError.keyError := by
  induction l with
  | nil => cases ha
  | cons b bs ih =>
      rcases List.mem_cons.mp ha with rfl | ha2
      · simp [mapExcept, hfa]
      · rcases hf b with hb | ⟨r, hb⟩
        · simp [mapExcept, hb]
        · simp [mapExcept, hb, ih ha2]

/-- Claim C5 (amended): if some edge on an enumerated path is
registered but its attributes dict lacks the chosen attribute key,
the weight gathering of `getpaths` fails with `KeyError` — not the
`AttributeError` the claim states — and no default value is
substituted. -/
theorem c5_missing_attribute_keyerror (g : NxGraph) (s t attrname : String)
    (h : ∃ eps, getpathsEdges g s t = Except.ok eps ∧
      ∃ p ∈ eps, ∃ e ∈ p, ∃ c, lookupEdge g e = some c ∧
        ∀ kv ∈ c.attributes, kv.1 ≠ attrname) :
    weightsGather g s t attrname = Except.error PyError.keyError := by
  obtain ⟨eps, heps, p, hp, e, he, c, hc, hkv⟩ := h
  have hfe : edgeAttrValue g attrname e = Except.error PyError.keyError := by
    unfold edgeAttrValue
    rw [hc]
    show pyDictGet c.attributes attrname = Except.error PyError.keyError
    unfold pyDictGet
    have hnone : c.attributes.find? (fun kv => kv.1 = attrname) = none := by
      rw [List.find?_eq_none]
      intro kv hkvmem
      simpa using hkv kv hkvmem
    rw [hnone]
  have hpfail : mapExcept (edgeAttrValue g attrname) p =
      Except.error PyError.keyError :=
    mapExcept_error_of_mem _ (edgeAttrValue_cases g attrname) he hfe
  unfold weightsGather
  rw [heps]
  exact mapExcept_error_of_mem _
    (fun p2 => mapExcept_cases _ (edgeAttrValue_cases g attrname) p2) hp hpfail

/-- Witness for C5 (amended) on the concrete network `gOpt`, whose
single edge carries only a `weight` attribute, queried for `cost`. -/
theorem c5_missing_attribute_keyerror_witness :
    (∃ eps, getpathsEdges gOpt "A" "B" = Except.ok eps ∧
      ∃ p ∈ eps, ∃ e ∈ p, ∃ c, lookupEdge gOpt e = some c ∧
        ∀ kv ∈ c.attributes, kv.1 ≠ "cost") ∧
    weightsGather gOpt "A" "B" "cost" = Except.error PyError.keyError := by
  have h : ∃ eps, getpathsEdges gOpt "A" "B" = Except.ok eps ∧
      ∃ p ∈ eps, ∃ e ∈ p, ∃ c, lookupEdge gOpt e = some c ∧
        ∀ kv ∈ c.attributes, kv.1 ≠ "cost" :=
    ⟨[[("A", "B")]], rfl, [("A", "B")], by decide, ("A", "B"), by decide,
      edgeAB, rfl, by decide⟩
  exact ⟨h, c5_missing_attribute_keyerror gOpt "A" "B" "cost" h⟩

/-- Claim C5 counterexample: evaluating the weight gathering of
`getpaths` on `gOpt` with the missing attribute key `cost` raises
`KeyError`, which is a different exception kind than the
`AttributeError` the claim names. -/
theorem c5_counterexample :
    weightsGather gOpt "A" "B" "cost" = Except.error PyError.keyError ∧
    PyError.keyError ≠ PyError.attributeError := by
  constructor
  · rfl
  · decide

/-- Claim C8 (amended): when the `roundvalue` keyword is supplied with
a nonzero digit count (the code guards on truthiness, so zero
disables rounding), every weight value and every cost value in the
output is the rounding of the corresponding fully-aggregated value —
i.e. rounding is applied after aggregation and never inside it. -/
theorem c8_round_after_aggregation (g : NxGraph) (s t attrname calculate : String)
    (cf : String × String → ℚ) (d : Int) (hd : d ≠ 0) :
    weightsFinal g s t attrname calculate (some d) =
      (weightsCombined g s t attrname calculate).map (fun ws => ws.map (pyRound d)) ∧
    costsFinal g s t cf (some d) =
      (costsRaw g s t cf).map (fun cs => cs.map (pyRound d)) := by
  have ha : applyRound (some d) = fun xs => xs.map (pyRound d) := by
    funext xs
    unfold applyRound
    rw [if_pos (by simp [pyTruthyInt, hd])]
    simp
  constructor
  · unfold weightsFinal; rw [ha]
  · unfold costsFinal; rw [ha]

/-- Witness for C8 (amended) with one rounding digit on the concrete
network `gQ`. -/
theorem c8_round_after_aggregation_witness :
    (1 : Int) ≠ 0 ∧
    (weightsFinal gQ "A" "B" "weight" "multiplicative" (some 1) =
      (weightsCombined gQ "A" "B" "weight" "multiplicative").map
        (fun ws => ws.map (pyRound 1)) ∧
     costsFinal gQ "A" "B" (fun _ => 1) (some 1) =
      (costsRaw gQ "A" "B" (fun _ => 1)).map (fun cs => cs.map (pyRound 1))) :=
  ⟨by decide,
   c8_round_after_aggregation gQ "A" "B" "weight" "multiplicative" (fun _ => 1) 1
     (by decide)⟩

/-- Claim C8 counterexample: on `gQ` the single path weight is `5/2`;
supplying `roundvalue = 0` — a legitimate number of fractional
digits — leaves the output at `5/2` even though rounding it to zero
digits would give `2`, because `if roundvalue:` treats `0` as
unsupplied. -/
theorem c8_counterexample :
    weightsFinal gQ "A" "B" "weight" "multiplicative" (some 0) =
      Except.ok [5 / 2] ∧
    pyRound 0 (5 / 2) = 2 ∧ (5 / 2 : ℚ) ≠ 2 := by
  refine ⟨?_, ?_, by norm_num⟩
  · have h : weightsFinal gQ "A" "B" "weight" "multiplicative" (some 0) =
        Except.ok [List.prod [(5 : ℚ) / 2]] := rfl
    rw [h]
    norm_num
  · unfold pyRound roundHalfEven
    norm_num

/-- Membership in the successor list certifies the directed edge. -/
theorem mem_of_mem_successors {E : List (String × String)} {u v : String}
    (h : v ∈ successors E u) : (u, v) ∈ E := by
  unfold successors at h
  obtain ⟨e, he, hev⟩ := List.mem_map.mp h
  obtain ⟨heE, heu⟩ := List.mem_filter.mp he
  have h1 : e.1 = u := of_decide_eq_true heu
  have h2 : (u, v) = e := by
    cases e
    simp only [Prod.mk.injEq]
    exact ⟨h1.symm, hev.symm⟩
  rw [h2]
  exact heE

/-- Soundness of the DFS enumeration: every produced path starts at
the current node, ends at the target, repeats no node, avoids the
visited set, and follows edges of `E` — for every fuel value. -/
theorem dfsPaths_sound (E : List (String × String)) (tgt : String) :
    ∀ (fuel : Nat) (cur : String) (visited : List String), cur ∉ visited →
      ∀ p ∈ dfsPaths E tgt fuel cur visited,
        p.head? = some cur ∧ p.getLast? = some tgt ∧ p.Nodup ∧
          (∀ x ∈ p, x ∉ visited) ∧ p.Chain' (fun a b => (a, b) ∈ E) := by
  intro fuel
  induction fuel with
  | zero =>
      intro cur visited hcv p hp
      simp only [dfsPaths] at hp
      split at hp
      · next h =>
          subst h
          simp only [List.mem_singleton] at hp
          subst hp
          refine ⟨rfl, by simp, by simp, ?_, by simp⟩
          intro x hx
          simp only [List.mem_singleton] at hx
          subst hx
          exact hcv
      · cases hp
  | succ f ih =>
      intro cur visited hcv p hp
      simp only [dfsPaths] at hp
      split at hp
      · next h =>
          subst h
          simp only [List.mem_singleton] at hp
          subst hp
          refine ⟨rfl, by simp, by simp, ?_, by simp⟩
          intro x hx
          simp only [List.mem_singleton] at hx
          subst hx
          exact hcv
      · next hne =>
          rw [List.mem_flatMap] at hp
          obtain ⟨nxt, hnxt, hp⟩ := hp
          rw [List.mem_map] at hp
          obtain ⟨q, hq, rfl⟩ := hp
          rw [List.mem_filter] at hnxt
          obtain ⟨hsucc, hnvb⟩ := hnxt
          have hnv : nxt ∉ cur :: visited := of_decide_eq_true hnvb
          obtain ⟨ihh, ihl, ihnd, ihvis, ihch⟩ := ih nxt (cur :: visited) hnv q hq
          obtain ⟨q0, qs, rfl⟩ : ∃ q0 qs, q = q0 :: qs := by
            cases q with
            | nil => cases ihh
            | cons a as => exact ⟨a, as, rfl⟩
          have hq0 : q0 = nxt := by simpa using ihh
          refine ⟨rfl, ?_, ?_, ?_, ?_⟩
          · rw [List.getLast?_cons_cons]
            exact ihl
          · rw [List.nodup_cons]
            refine ⟨?_, ihnd⟩
            intro hmem
            exact (ihvis cur hmem) (List.mem_cons_self cur visited)
          · intro x hx
            rcases List.mem_cons.mp hx with rfl | hx2
            · exact hcv
            · intro hxv
              exact (ihvis x hx2) (List.mem_cons_of_mem cur hxv)
          · rw [List.chain'_cons]
            refine ⟨?_, ihch⟩
            rw [hq0]
            exact mem_of_mem_successors hsucc

/-- A nonempty edge-chain from `a` to `b` witnesses reachability. -/
theorem chain_reachable (E : List (String × String)) :
    ∀ (p : List String) (a b : String), p.head? = some a →
      p.getLast? = some b → p.Chain' (fun u v => (u, v) ∈ E) →
      Reachable E a b := by
  intro p
  induction p with
  | nil => intro a b hh; cases hh
  | cons x xs ih =>
      intro a b hh hl hch
      have hxa : x = a := by simpa using hh
      subst hxa
      cases xs with
      | nil =>
          have hxb : x = b := by simpa using hl
          subst hxb
          exact Reachable.refl x
      | cons y ys =>
          rw [List.getLast?_cons_cons] at hl
          rw [List.chain'_cons] at hch
          exact Reachable.step hch.1 (ih y b rfl hl hch.2)

/-- Claim C6: every path produced by the enumeration inside `getpaths`
starts at the source, ends at the target and repeats no node; and
when the target is unreachable from the source the enumeration is the
empty list rather than an error. -/
theorem c6_simple_paths_sound (g : NxGraph) (s t : String)
    (hs : s ∈ g.nodes) (ht : t ∈ g.nodes) :
    ∃ ps, getpathsNodes g s t = Except.ok ps ∧
      (∀ p ∈ ps, p.head? = some s ∧ p.getLast? = some t ∧ p.Nodup) ∧
      (¬ Reachable (topoEdges g) s t → ps = []) := by
  refine ⟨dfsPaths (topoEdges g) t g.nodes.length s [], ?_, ?_, ?_⟩
  · unfold getpathsNodes
    rw [if_pos ⟨hs, ht⟩]
  · intro p hp
    obtain ⟨hh, hl, hnd, _, _⟩ :=
      dfsPaths_sound (topoEdges g) t g.nodes.length s [] (by simp) p hp
    exact ⟨hh, hl, hnd⟩
  · intro hnr
    by_contra hne
    obtain ⟨p, hp⟩ := List.exists_mem_of_ne_nil _ hne
    obtain ⟨hh, hl, _, _, hch⟩ :=
      dfsPaths_sound (topoEdges g) t g.nodes.length s [] (by simp) p hp
    exact hnr (chain_reachable (topoEdges g) p s t hh hl hch)

/-- Witness for C6 on the concrete network `gEx`, where `C` is a node
but unreachable from `A`. -/
theorem c6_simple_paths_sound_witness :
    ("A" ∈ gEx.nodes ∧ "C" ∈ gEx.nodes) ∧
    (∃ ps, getpathsNodes gEx "A" "C" = Except.ok ps ∧
      (∀ p ∈ ps, p.head? = some "A" ∧ p.getLast? = some "C" ∧ p.Nodup) ∧
      (¬ Reachable (topoEdges gEx) "A" "C" → ps = [])) :=
  ⟨by decide, c6_simple_paths_sound gEx "A" "C" (by decide) (by decide)⟩

end Routicle
